import Mathlib

/-!
Verification development for the RossScheduler device communication and
scheduling engine.  The definitions below are shallow embeddings of the
TypeScript source: the SW-P-08 binary protocol client, the RossTalk
line-oriented client, their connection pools, the JSON record store, and
the job scheduler.  Machine integers are modelled as `Nat` with explicit
truncation where the source truncates (Buffer byte semantics); fallible
code returns `Except`; byte buffers are `List Nat`; character buffers are
`List Char`.
-/

namespace RossScheduler

/-! ## SW-P-08 binary protocol client (src SWP08Client) -/

/-- Start-of-message sentinel byte (0x10). -/
def SOM : Nat := 0x10

/-- End-of-message byte, same value as SOM (0x10). -/
def EOM : Nat := 0x10

/-- Second end-of-message byte (0x11), disambiguating a true end of frame. -/
def EOM2 : Nat := 0x11

/-- Opcode of the SW-P-08 connect (route) command. -/
def COMMAND_CONNECT : Nat := 0x02

/-- High 7-bit group of a source/destination value, as the builder computes it:
`(value >> 7) & 0x7F`. -/
def msb7 (v : Nat) : Nat := (v >>> 7) &&& 0x7F

/-- Low 7-bit group of a source/destination value, as the builder computes it:
`value & 0x7F`. -/
def lsb7 (v : Nat) : Nat := v &&& 0x7F

/-- Recombination of the two 7-bit groups: `(MSB << 7) | LSB`. -/
def recombine7 (msb lsb : Nat) : Nat := (msb <<< 7) ||| lsb

/-- Frame built by `SWP08Client.buildConnectCommand`: SOM, the seven payload
bytes `[opcode, matrix, level, destMSB, destLSB, srcMSB, srcLSB]`, their XOR
checksum, EOM, EOM2.  `Buffer.from` truncates every entry to a byte, modelled
by the final `% 256` map. -/
def buildConnectCommand (matrix level source destination : Nat) : List Nat :=
  let destMsb := msb7 destination
  let destLsb := lsb7 destination
  let srcMsb := msb7 source
  let srcLsb := lsb7 source
  let data := [COMMAND_CONNECT, matrix, level, destMsb, destLsb, srcMsb, srcLsb]
  let checksum := data.foldl Nat.xor 0
  (([SOM] ++ data ++ [checksum] ++ [EOM, EOM2]).map (fun b => b % 256))

/-! ### Response framing (src SWP08Client.processResponse) -/

/-- Scan of `responseBuffer.indexOf(SOM)`: splits the buffer at the first SOM
byte, returning the bytes before it and the bytes after it, or `none` when no
SOM is present. -/
def splitFirstSOM : List Nat → Option (List Nat × List Nat)
  | [] => none
  | a :: rest =>
    if a = SOM then some ([], rest)
    else (splitFirstSOM rest).map (fun p => (a :: p.1, p.2))

/-- Scan of the inner `for` loop: walks the bytes after the SOM looking for the
first adjacent `EOM, EOM2` pair, returning the bytes up to and including that
pair, and the remainder, or `none` when no pair is complete yet. -/
def takeThroughPair : List Nat → Option (List Nat × List Nat)
  | a :: b :: rest =>
    if a = EOM ∧ b = EOM2 then some ([a, b], rest)
    else
      match takeThroughPair (b :: rest) with
      | some (msg, remn) => some (a :: msg, remn)
      | none => none
  | _ => none

/-- One call of `SWP08Client.processResponse`: find the first SOM, find the
first `EOM, EOM2` pair after it, emit the bytes from SOM through EOM2 as one
response, and keep the remainder as the new buffer.  The `while` loop body
ends in an unconditional `break`, so at most one message is emitted per call.
Returns (emitted responses, new buffer). -/
def processResponse (buf : List Nat) : List (List Nat) × List Nat :=
  match splitFirstSOM buf with
  | none => ([], buf)
  | some (_, rest) =>
    match takeThroughPair rest with
    | some (seg, remn) => ([SOM :: seg], remn)
    | none => ([], buf)

/-- One socket `data` event of the SW-P-08 client: the chunk is appended to the
buffer and `processResponse` runs once.  The first component accumulates all
emitted responses. -/
def swpFeed (st : List (List Nat) × List Nat) (chunk : List Nat) :
    List (List Nat) × List Nat :=
  let next := processResponse (st.2 ++ chunk)
  (st.1 ++ next.1, next.2)

/-- Delivery of a sequence of byte chunks to a client whose buffer starts
empty. -/
def swpFeedAll (chunks : List (List Nat)) : List (List Nat) × List Nat :=
  chunks.foldl swpFeed ([], [])

/-- Adjacent `EOM, EOM2` pair occurring anywhere in a byte list. -/
def hasPair : List Nat → Bool
  | a :: b :: rest => (a = EOM && b = EOM2) || hasPair (b :: rest)
  | _ => false

/-- Well-formed SW-P-08 frame as the parser understands it: a SOM byte, then a
body whose final two bytes are the only adjacent `EOM, EOM2` pair reachable by
the scan (no such pair starts before the final one). -/
def validFrame : List Nat → Bool
  | s :: rest =>
    s = SOM && decide (2 ≤ rest.length) && rest.getLast? = some EOM2 &&
      rest.dropLast.getLast? = some EOM && !hasPair rest.dropLast
  | [] => false

/-! ## RossTalk line-oriented client (src RossTalkClient) -/

/-- Whitespace characters removed by JavaScript `String.prototype.trim`
(the subset relevant to this protocol). -/
def isJsWS (c : Char) : Bool :=
  c = ' ' || c = '\t' || c = '\n' || c = '\r' || c = '\x0b' || c = '\x0c'

/-- JavaScript `trim`: whitespace removed from both ends. -/
def trimChars (l : List Char) : List Char :=
  ((l.dropWhile isJsWS).reverse.dropWhile isJsWS).reverse

/-- JavaScript `split("\r\n")` on a character list: leftmost non-overlapping
CRLF separators; always returns at least one (possibly empty) segment. -/
def splitCRLF : List Char → List (List Char)
  | [] => [[]]
  | [c1] => [[c1]]
  | c1 :: c2 :: rest2 =>
    if c1 = '\r' ∧ c2 = '\n' then [] :: splitCRLF rest2
    else
      match splitCRLF (c2 :: rest2) with
      | seg :: segs => (c1 :: seg) :: segs
      | [] => [[c1]]

/-- One socket `data` event of the RossTalk client: the chunk is appended to
`responseBuffer`, the whole buffer is split on CRLF, the trailing (possibly
empty) segment is kept as the new buffer, and each remaining segment whose
`trim()` is nonempty is emitted trimmed, in order. -/
def rtOnData (buffer chunk : List Char) : List (List Char) × List Char :=
  let lines := splitCRLF (buffer ++ chunk)
  let buf := (lines.getLast?).getD []
  let emitted := (lines.dropLast.map trimChars).filter (fun l => !l.isEmpty)
  (emitted, buf)

/-- Value the one-shot response listener installed by
`RossTalkClient.sendCommand` resolves with when the next `data` event arrives:
the first response emitted by that event, if any. -/
def rtSendCommandResolution (buffer chunk : List Char) : Option (List Char) :=
  (rtOnData buffer chunk).1.head?

/-- Adjacent CRLF occurring anywhere in a character list. -/
def hasCRLF : List Char → Bool
  | c1 :: c2 :: rest => (c1 = '\r' && c2 = '\n') || hasCRLF (c2 :: rest)
  | _ => false

/-- Wire image of a list of complete CRLF-terminated segments followed by a
trailing partial segment. -/
def joinCRLF (segs : List (List Char)) (t : List Char) : List Char :=
  (segs.map (fun s => s ++ ['\r', '\n'])).flatten ++ t

/-! ## Connection pools (src SWP08Pool, RossTalkPool) -/

/-- Connection parameters a `SWP08Client` is constructed with.  The pool never
passes `matrix`/`level`, so they take their defaults (0). -/
structure SWPClientState where
  host : String
  port : Nat
  matrix : Nat
  level : Nat
deriving Repr, DecidableEq

/-- Connection parameters a `RossTalkClient` is constructed with. -/
structure RTClientState where
  host : String
  port : Nat
deriving Repr, DecidableEq

/-- Registry lookup shared by both pools (`Map.get`). -/
def poolLookup {α : Type} (pool : List (Nat × α)) (deviceId : Nat) : Option α :=
  (pool.find? (fun p => p.1 = deviceId)).map (fun p => p.2)

/-- Pool operation `SWP08Pool.getClient`: return the registered client for the device id if
present, otherwise construct one from `host`/`port` (matrix/level defaulted)
and register it.  Returns the client and the updated registry. -/
def swpGetClient (pool : List (Nat × SWPClientState)) (deviceId : Nat)
    (host : String) (port : Nat) : SWPClientState × List (Nat × SWPClientState) :=
  match poolLookup pool deviceId with
  | some c => (c, pool)
  | none =>
    let c : SWPClientState := ⟨host, port, 0, 0⟩
    (c, (deviceId, c) :: pool)

/-- Pool operation `RossTalkPool.getClient`: same registry pattern for the line client. -/
def rtGetClient (pool : List (Nat × RTClientState)) (deviceId : Nat)
    (host : String) (port : Nat) : RTClientState × List (Nat × RTClientState) :=
  match poolLookup pool deviceId with
  | some c => (c, pool)
  | none =>
    let c : RTClientState := ⟨host, port⟩
    (c, (deviceId, c) :: pool)

/-- Pool operation `SWP08Pool.disconnect`: tear down and evict one entry. -/
def swpPoolDisconnect (pool : List (Nat × SWPClientState)) (deviceId : Nat) :
    List (Nat × SWPClientState) :=
  match poolLookup pool deviceId with
  | some _ => pool.filter (fun p => !(p.1 == deviceId))
  | none => pool

/-- Pool operation `RossTalkPool.disconnect`: tear down and evict one entry. -/
def rtPoolDisconnect (pool : List (Nat × RTClientState)) (deviceId : Nat) :
    List (Nat × RTClientState) :=
  match poolLookup pool deviceId with
  | some _ => pool.filter (fun p => !(p.1 == deviceId))
  | none => pool

/-! ## Record store (src Database) -/

/-- Execution status recorded on a command log row. -/
inductive LogStatus where
  | success
  | error
deriving Repr, DecidableEq

/-- Kind of command a schedule issues. -/
inductive CommandType where
  | take
  | route
deriving Repr, DecidableEq

/-- One-time or recurring schedule. -/
inductive ScheduleType where
  | once
  | recurring
deriving Repr, DecidableEq

/-- Decoded command payload: the optional fields of the parsed
`command_data` JSON object. -/
structure CommandData where
  takeId : Option Nat
  source : Option Nat
  destination : Option Nat
deriving Repr, DecidableEq

/-- Outcome of `JSON.parse` on the stored `command_data` string: a thrown
`SyntaxError` message, or the decoded object. -/
def CommandPayload : Type := Except String CommandData

/-- Device record held by the store. -/
structure DeviceRecord where
  id : Nat
  name : String
  type : String
  host : String
  port : Nat
  enabled : Bool
deriving Repr, DecidableEq

/-- Schedule record held by the store.  Timestamps are `Nat` instants. -/
structure ScheduleRecord where
  id : Nat
  name : String
  device_id : Nat
  command_type : CommandType
  command_data : CommandPayload
  schedule_type : ScheduleType
  cron_expression : Option String
  run_at : Option Nat
  enabled : Bool
  last_run : Option Nat
  next_run : Option Nat

/-- Command log row as `Database.createLog` builds it. -/
structure LogRecord where
  id : Nat
  schedule_id : Option Nat
  device_id : Nat
  command : String
  status : LogStatus
  response : Option String
  executed_at : Nat
deriving Repr, DecidableEq

/-- Store contents relevant to the scheduler. -/
structure Db where
  devices : List DeviceRecord
  schedules : List ScheduleRecord
  logs : List LogRecord
  nextLogId : Nat

/-- Fields of `updateSchedule` the scheduler ever patches; a `none` field is
absent from the partial update and leaves the record untouched. -/
structure SchedulePatch where
  enabled : Option Bool := none
  last_run : Option Nat := none
  next_run : Option Nat := none

/-- Application of a partial update to one schedule record, mirroring the
field-by-field `if (x !== undefined)` assignments in `Database.updateSchedule`. -/
def applyPatch (s : ScheduleRecord) (p : SchedulePatch) : ScheduleRecord :=
  { s with
    enabled := p.enabled.getD s.enabled
    last_run := match p.last_run with | some v => some v | none => s.last_run
    next_run := match p.next_run with | some v => some v | none => s.next_run }

/-- In-place mutation of the first record with the given id (`Array.find`
followed by field assignment); no record, no change. -/
def updateFirst (l : List ScheduleRecord) (id : Nat) (p : SchedulePatch) :
    List ScheduleRecord :=
  match l with
  | [] => []
  | s :: rest =>
    if s.id = id then applyPatch s p :: rest else s :: updateFirst rest id p

/-- Store operation `Database.getSchedule`. -/
def getSchedule (db : Db) (id : Nat) : Option ScheduleRecord :=
  db.schedules.find? (fun s => s.id = id)

/-- Store operation `Database.getDevice`. -/
def getDevice (db : Db) (id : Nat) : Option DeviceRecord :=
  db.devices.find? (fun d => d.id = id)

/-- Store operation `Database.updateSchedule` restricted to the fields the scheduler writes. -/
def updateSchedule (db : Db) (id : Nat) (p : SchedulePatch) : Db :=
  { db with schedules := updateFirst db.schedules id p }

/-- Store operation `Database.createLog`: assign the next id, stamp the execution time, append
the row, and retain only the last 10000 rows. -/
def createLog (db : Db) (schedule_id : Option Nat) (device_id : Nat)
    (command : String) (status : LogStatus) (response : Option String)
    (now : Nat) : Db × LogRecord :=
  let row : LogRecord :=
    { id := db.nextLogId, schedule_id := schedule_id, device_id := device_id
      command := command, status := status, response := response
      executed_at := now }
  let l := db.logs ++ [row]
  let l' := if 10000 < l.length then l.drop (l.length - 10000) else l
  ({ db with logs := l', nextLogId := db.nextLogId + 1 }, row)

/-! ## Job scheduler (src Scheduler) -/

/-- Joined schedule row the scheduler works on (`ScheduleData` in the source):
the schedule record's command fields plus the device's address. -/
structure ScheduleData where
  id : Nat
  name : String
  device_id : Nat
  device_type : String
  host : String
  port : Nat
  command_type : CommandType
  command_data : CommandPayload
  schedule_type : ScheduleType
  cron_expression : Option String
  run_at : Option Nat

/-- Join of a schedule record with its device's current address, as `runNow`
builds `fullSched`. -/
def toScheduleData (r : ScheduleRecord) (host : String) (port : Nat)
    (dtype : String) : ScheduleData :=
  { id := r.id, name := r.name, device_id := r.device_id, device_type := dtype
    host := host, port := port, command_type := r.command_type
    command_data := r.command_data, schedule_type := r.schedule_type
    cron_expression := r.cron_expression, run_at := r.run_at }

/-- Result shape returned by the link layer and the scheduler. -/
structure Result where
  success : Bool
  message : String
deriving Repr, DecidableEq

/-- Link-layer behaviour the execution pipeline awaits: each pool call either
resolves with a `Result` or rejects with an error message (`Except.error`). -/
structure LinkEnv where
  sendTake : Nat → String → Nat → Nat → Except String Result
  route : Nat → String → Nat → Nat → Nat → Except String Result

/-- Required payload field(s) for a declared command kind, as the pipeline's
branch conditions check them. -/
def hasRequiredField : CommandType → CommandData → Bool
  | .take, cd => cd.takeId.isSome
  | .route, cd => cd.source.isSome && cd.destination.isSome

/-- Branch of `Scheduler.executeCommand` selecting the command string and the
link-layer call for the declared command kind: a rejected pool call is caught
in the `catch` and converted to a failure `Result`; a payload missing the
required field for its kind yields the immediate failure
`"Invalid command data"` with command string `"UNKNOWN"`. -/
def commandAndResult (env : LinkEnv) (sched : ScheduleData) (cd : CommandData) :
    String × Result :=
  match sched.command_type, cd.takeId, cd.source, cd.destination with
  | .take, some t, _, _ =>
    ("TAKE " ++ toString t,
      match env.sendTake sched.device_id sched.host sched.port t with
      | .ok r => r
      | .error e => ⟨false, e⟩)
  | .route, _, some s, some d =>
    ("ROUTE " ++ toString s ++ " → " ++ toString d,
      match env.route sched.device_id sched.host sched.port s d with
      | .ok r => r
      | .error e => ⟨false, e⟩)
  | _, _, _, _ => ("UNKNOWN", ⟨false, "Invalid command data"⟩)

/-- Tail of `Scheduler.executeCommand` after the command branch: append the
log row, set `last_run`, and update `next_run` when the Active Job registry
reports a next invocation. -/
def execFinish (now : Nat) (jobNextRun : Option Nat) (db : Db)
    (sched : ScheduleData) (command : String) (result : Result) :
    Db × Result × LogRecord :=
  let logged := createLog db (some sched.id) sched.device_id command
    (if result.success then .success else .error) (some result.message) now
  let db2 := updateSchedule logged.1 sched.id { last_run := some now }
  let db3 :=
    match jobNextRun with
    | some t => updateSchedule db2 sched.id { next_run := some t }
    | none => db2
  (db3, result, logged.2)

/-- One run of `Scheduler.executeCommand`.  `JSON.parse` runs before the `try`
block, so an unparseable payload propagates as `Except.error` with nothing
logged.  Otherwise the branch for the command kind runs and the logging tail
follows.  Returns the updated store, the pipeline's own result, and the log
row. -/
def executeCommand (env : LinkEnv) (now : Nat) (jobNextRun : Option Nat)
    (db : Db) (sched : ScheduleData) :
    Except String (Db × Result × LogRecord) :=
  match sched.command_data with
  | .error e => .error e
  | .ok cd =>
    let cr := commandAndResult env sched cd
    .ok (execFinish now jobNextRun db sched cr.1 cr.2)

/-- Scheduler operation `Scheduler.runNow`: look up the schedule and its device directly from the
store, run the pipeline once, and return `success:true, "Command executed"`;
missing records short-circuit with a failure result. -/
def runNow (env : LinkEnv) (now : Nat) (jobNextRun : Option Nat) (db : Db)
    (scheduleId : Nat) : Except String (Db × Result) :=
  match getSchedule db scheduleId with
  | none => .ok (db, ⟨false, "Schedule not found"⟩)
  | some sr =>
    match getDevice db sr.device_id with
    | none => .ok (db, ⟨false, "Device not found"⟩)
    | some dev =>
      match executeCommand env now jobNextRun db
          (toScheduleData sr dev.host dev.port dev.type) with
      | .error e => .error e
      | .ok (db', _, _) => .ok (db', ⟨true, "Command executed"⟩)

/-- Timer callback installed for a one-time schedule: run the pipeline, then
set `enabled = false`.  The callback does not await the pipeline, and the only
throw before any store write is `JSON.parse`, so a thrown pipeline leaves the
store as it was; the disable update runs regardless. -/
def onceTimerFire (env : LinkEnv) (now : Nat) (jobNextRun : Option Nat)
    (db : Db) (sched : ScheduleData) : Db :=
  let db1 :=
    match executeCommand env now jobNextRun db sched with
    | .ok (db', _, _) => db'
    | .error _ => db
  updateSchedule db1 sched.id { enabled := some false }

/-! ### Active Job registry -/

/-- In-memory scheduler state: the Active Job registry (schedule id to timer
handle), the set of live (not yet cancelled) timer handles, and a fresh-handle
counter standing in for allocation of new `node-schedule` jobs. -/
structure SchedulerState where
  jobs : List (Nat × Nat)
  live : List Nat
  nextHandle : Nat

/-- Registry lookup `this.jobs.get(scheduleId)`. -/
def lookupJob (st : SchedulerState) (scheduleId : Nat) : Option Nat :=
  ((st.jobs.find? (fun p => p.1 = scheduleId))).map (fun p => p.2)

/-- Scheduler operation `Scheduler.cancelJob`: when a job is registered for the id, cancel its
timer and delete the registry entry. -/
def cancelJob (st : SchedulerState) (scheduleId : Nat) : SchedulerState :=
  match lookupJob st scheduleId with
  | some h =>
    { jobs := st.jobs.filter (fun p => !(p.1 == scheduleId))
      live := st.live.erase h
      nextHandle := st.nextHandle }
  | none => st

/-- Next fire time of the job `Scheduler.scheduleJob` would install, or `none`
when it installs nothing.  `cronNext` models `node-schedule`: for a valid cron
expression it yields the next invocation time, for an invalid one it yields
`none` (a null job).  A recurring schedule needs a truthy (non-null, nonempty)
cron expression; a one-time schedule needs a strictly future `run_at`. -/
def scheduleJobNext (cronNext : String → Nat → Option Nat) (now : Nat)
    (sched : ScheduleData) : Option Nat :=
  match sched.schedule_type with
  | .recurring =>
    match sched.cron_expression with
    | some expr => if expr = "" then none else cronNext expr now
    | none => none
  | .once =>
    match sched.run_at with
    | some t => if now < t then some t else none
    | none => none

/-- Scheduler operation `Scheduler.scheduleJob`: cancel any existing Active Job for the id, then
install a timer when the schedule calls for one (fresh handle, registered and
live), persisting the job's computed next fire time into `next_run`; when
nothing is installed the store is untouched. -/
def scheduleJob (cronNext : String → Nat → Option Nat) (now : Nat)
    (st : SchedulerState) (db : Db) (sched : ScheduleData) :
    SchedulerState × Db :=
  let st1 := cancelJob st sched.id
  match scheduleJobNext cronNext now sched with
  | none => (st1, db)
  | some t =>
    let h := st1.nextHandle
    ({ jobs := (sched.id, h) :: st1.jobs, live := h :: st1.live
       nextHandle := h + 1 },
     updateSchedule db sched.id { next_run := some t })

/-- Well-formedness of the in-memory scheduler state: registry keys are
distinct, live timers are distinct, and every known handle is below the
fresh-handle counter. -/
def WF (st : SchedulerState) : Prop :=
  (st.jobs.map Prod.fst).Nodup ∧ (∀ p ∈ st.jobs, p.2 < st.nextHandle) ∧
    st.live.Nodup ∧ (∀ h ∈ st.live, h < st.nextHandle)

/-! ## Helper lemmas -/

/-- Bit mask `&&& 0x7F` reads the low seven bits: bit view. -/
theorem testBit_0x7F (j : Nat) : Nat.testBit 0x7F j = decide (j < 7) := by
  have h : (0x7F : Nat) = 2 ^ 7 - 1 := by norm_num
  rw [h, Nat.testBit_two_pow_sub_one]

/-- XOR commutes with byte truncation. -/
theorem xor_mod256 (a b : Nat) : (a ^^^ b) % 256 = a % 256 ^^^ b % 256 := by
  have h : (256 : Nat) = 2 ^ 8 := by norm_num
  rw [h]
  apply Nat.eq_of_testBit_eq
  intro i
  simp only [Nat.testBit_mod_two_pow, Nat.testBit_xor]
  by_cases hi : i < 8 <;> simp [hi]

/-- A 7-bit masked value is already a byte. -/
theorem mask7_mod256 (x : Nat) : (x &&& 0x7F) % 256 = x &&& 0x7F :=
  Nat.mod_eq_of_lt (Nat.lt_of_le_of_lt Nat.and_le_right (by norm_num))

/-- C5: for every value in 0..16383, splitting into the builder's
`MSB = (value >> 7) & 0x7F` and `LSB = value & 0x7F` and recombining as
`(MSB << 7) | LSB` recovers the value exactly. -/
theorem msb7_lsb7_roundtrip (v : Nat) (h : v ≤ 16383) :
    recombine7 (msb7 v) (lsb7 v) = v := by
  unfold recombine7 msb7 lsb7
  apply Nat.eq_of_testBit_eq
  intro i
  simp only [Nat.testBit_lor, Nat.testBit_land, Nat.testBit_shiftLeft,
    Nat.testBit_shiftRight, testBit_0x7F]
  rcases Nat.lt_or_ge i 7 with hlt | hge
  · simp [hlt, Nat.not_le.mpr hlt]
  · rcases Nat.lt_or_ge i 14 with hlt14 | hge14
    · have hi : 7 + (i - 7) = i := by omega
      simp [hge, hi, (by omega : i - 7 < 7)]
    · have hbig : v.testBit i = false :=
        Nat.testBit_lt_two_pow (Nat.lt_of_lt_of_le (by omega : v < 2 ^ 14)
          (Nat.pow_le_pow_right (by norm_num) hge14))
      simp [hbig]
      omega

/-- Witness for C5 at the top of the range. -/
theorem msb7_lsb7_roundtrip_witness :
    16383 ≤ 16383 ∧ recombine7 (msb7 16383) (lsb7 16383) = 16383 :=
  ⟨by decide, msb7_lsb7_roundtrip 16383 (by decide)⟩

/-- C4: in every frame the route-command builder produces, the byte placed
before EOM (index 8) is the XOR of exactly the seven payload bytes at indices
1..7 (opcode, matrix, level, destMSB, destLSB, srcMSB, srcLSB); SOM, EOM and
EOM2 sit outside the sum. -/
theorem buildConnectCommand_checksum (matrix level source destination : Nat) :
    (buildConnectCommand matrix level source destination).length = 11 ∧
    (buildConnectCommand matrix level source destination).getD 0 0 = SOM ∧
    (buildConnectCommand matrix level source destination).getD 9 0 = EOM ∧
    (buildConnectCommand matrix level source destination).getD 10 0 = EOM2 ∧
    (buildConnectCommand matrix level source destination).getD 8 0 =
      ((((((buildConnectCommand matrix level source destination).getD 1 0 ^^^
        (buildConnectCommand matrix level source destination).getD 2 0) ^^^
        (buildConnectCommand matrix level source destination).getD 3 0) ^^^
        (buildConnectCommand matrix level source destination).getD 4 0) ^^^
        (buildConnectCommand matrix level source destination).getD 5 0) ^^^
        (buildConnectCommand matrix level source destination).getD 6 0) ^^^
        (buildConnectCommand matrix level source destination).getD 7 0 := by
  unfold buildConnectCommand msb7 lsb7
  refine ⟨rfl, rfl, rfl, rfl, ?_⟩
  simp only [SOM, EOM, EOM2, COMMAND_CONNECT, List.map, List.cons_append,
    List.nil_append, List.foldl, List.getD, List.get?, Nat.zero_xor]
  have hx : ∀ a b : Nat, Nat.xor a b = a ^^^ b := fun _ _ => rfl
  simp only [hx, Nat.zero_xor, xor_mod256, mask7_mod256]
  norm_num

/-- Looking a key up after filtering that key out finds nothing. -/
theorem poolLookup_filter_self {α : Type} (pool : List (Nat × α)) (id : Nat) :
    poolLookup (pool.filter (fun p => !(p.1 == id))) id = none := by
  unfold poolLookup
  cases hfind : (pool.filter (fun p => !(p.1 == id))).find? (fun p => p.1 = id) with
  | none => rfl
  | some x =>
    exfalso
    have hmem := List.mem_of_find?_eq_some hfind
    have hprop := List.find?_some hfind
    have := (List.mem_filter.mp hmem).2
    simp at hprop this
    exact this hprop

/-- Evicting a device id from a pool removes its registry entry. -/
theorem poolLookup_swpDisconnect (pool : List (Nat × SWPClientState)) (id : Nat) :
    poolLookup (swpPoolDisconnect pool id) id = none := by
  unfold swpPoolDisconnect
  cases hl : poolLookup pool id with
  | none => exact hl
  | some c => exact poolLookup_filter_self pool id

/-- Evicting a device id from the RossTalk pool removes its registry entry. -/
theorem poolLookup_rtDisconnect (pool : List (Nat × RTClientState)) (id : Nat) :
    poolLookup (rtPoolDisconnect pool id) id = none := by
  unfold rtPoolDisconnect
  cases hl : poolLookup pool id with
  | none => exact hl
  | some c => exact poolLookup_filter_self pool id

/-- C10: in both pools, once a client is registered for a device id, every
later `getClient(deviceId, host, port)` returns that same client, ignoring the
host and port arguments and leaving the registry unchanged — commands keep
using the client built from the old address; only `disconnect(deviceId)`
evicts the entry, after which `getClient` builds a fresh client from the
current address. -/
theorem getClient_ignores_new_address
    (spool : List (Nat × SWPClientState)) (rpool : List (Nat × RTClientState))
    (id : Nat) (host : String) (port : Nat)
    (c : SWPClientState) (rc : RTClientState) :
    (poolLookup spool id = some c → swpGetClient spool id host port = (c, spool)) ∧
    (poolLookup rpool id = some rc → rtGetClient rpool id host port = (rc, rpool)) ∧
    swpGetClient (swpPoolDisconnect spool id) id host port =
      (⟨host, port, 0, 0⟩, (id, ⟨host, port, 0, 0⟩) :: swpPoolDisconnect spool id) ∧
    rtGetClient (rtPoolDisconnect rpool id) id host port =
      (⟨host, port⟩, (id, ⟨host, port⟩) :: rtPoolDisconnect rpool id) := by
  refine ⟨?_, ?_, ?_, ?_⟩
  · intro h
    unfold swpGetClient
    rw [h]
  · intro h
    unfold rtGetClient
    rw [h]
  · unfold swpGetClient
    rw [poolLookup_swpDisconnect]
  · unfold rtGetClient
    rw [poolLookup_rtDisconnect]

/-- Sample SW-P-08 pool with device 1 registered at 10.0.0.1:9000. -/
def samplePoolSWP : List (Nat × SWPClientState) :=
  [(1, ⟨"10.0.0.1", 9000, 0, 0⟩)]

/-- Sample RossTalk pool with device 1 registered at 10.0.0.1:7788. -/
def samplePoolRT : List (Nat × RTClientState) :=
  [(1, ⟨"10.0.0.1", 7788⟩)]

/-- Witness for C10: after device 1 moves to 10.0.0.9, `getClient` still
returns the client bound to 10.0.0.1 in both pools. -/
theorem getClient_ignores_new_address_witness :
    poolLookup samplePoolSWP 1 = some ⟨"10.0.0.1", 9000, 0, 0⟩ ∧
    swpGetClient samplePoolSWP 1 "10.0.0.9" 9001 =
      (⟨"10.0.0.1", 9000, 0, 0⟩, samplePoolSWP) ∧
    rtGetClient samplePoolRT 1 "10.0.0.9" 7789 =
      (⟨"10.0.0.1", 7788⟩, samplePoolRT) :=
  ⟨rfl,
    (getClient_ignores_new_address samplePoolSWP samplePoolRT 1 "10.0.0.9" 9001
      ⟨"10.0.0.1", 9000, 0, 0⟩ ⟨"10.0.0.1", 7788⟩).1 rfl,
    (getClient_ignores_new_address samplePoolSWP samplePoolRT 1 "10.0.0.9" 7789
      ⟨"10.0.0.1", 9000, 0, 0⟩ ⟨"10.0.0.1", 7788⟩).2.1 rfl⟩

/-! ### Active Job registry lemmas -/

/-- After `cancelJob` the registry holds nothing for the cancelled id. -/
theorem lookupJob_cancel (st : SchedulerState) (id : Nat) :
    lookupJob (cancelJob st id) id = none := by
  unfold cancelJob
  cases hl : lookupJob st id with
  | none => exact hl
  | some h =>
    show ((SchedulerState.jobs _).find? _).map _ = none
    simp only
    cases hfind : (st.jobs.filter (fun p => !(p.1 == id))).find? (fun p => p.1 = id) with
    | none => rfl
    | some x =>
      exfalso
      have hmem := List.mem_of_find?_eq_some hfind
      have hprop := List.find?_some hfind
      have := (List.mem_filter.mp hmem).2
      simp at hprop this
      exact this hprop

/-- Cancellation keeps the fresh-handle counter. -/
theorem cancelJob_nextHandle (st : SchedulerState) (id : Nat) :
    (cancelJob st id).nextHandle = st.nextHandle := by
  unfold cancelJob
  cases lookupJob st id <;> rfl

/-- Timers live after `cancelJob` were live before. -/
theorem cancelJob_live_subset (st : SchedulerState) (id : Nat) (x : Nat)
    (hx : x ∈ (cancelJob st id).live) : x ∈ st.live := by
  unfold cancelJob at hx
  cases hl : lookupJob st id with
  | none => rw [hl] at hx; exact hx
  | some h => rw [hl] at hx; exact List.mem_of_mem_erase hx

/-- Registry entries after `cancelJob` were registered before. -/
theorem cancelJob_jobs_subset (st : SchedulerState) (id : Nat)
    (p : Nat × Nat) (hp : p ∈ (cancelJob st id).jobs) : p ∈ st.jobs := by
  unfold cancelJob at hp
  cases hl : lookupJob st id with
  | none => rw [hl] at hp; exact hp
  | some h => rw [hl] at hp; exact (List.mem_filter.mp hp).1

/-- Cancellation preserves well-formedness of the scheduler state. -/
theorem cancelJob_WF (st : SchedulerState) (id : Nat) (hwf : WF st) :
    WF (cancelJob st id) := by
  obtain ⟨hjobs, hbnd, hlive, hlbnd⟩ := hwf
  unfold cancelJob
  cases hl : lookupJob st id with
  | none => exact ⟨hjobs, hbnd, hlive, hlbnd⟩
  | some h =>
    refine ⟨?_, ?_, ?_, ?_⟩
    · exact hjobs.sublist ((List.filter_sublist st.jobs).map Prod.fst)
    · intro p hp
      exact hbnd p (List.mem_filter.mp hp).1
    · exact hlive.sublist (List.erase_sublist h st.live)
    · intro x hx
      exact hlbnd x (List.mem_of_mem_erase hx)

/-- A registered handle is below the fresh-handle counter. -/
theorem lookupJob_lt_nextHandle (st : SchedulerState) (id h : Nat)
    (hwf : WF st) (hl : lookupJob st id = some h) : h < st.nextHandle := by
  unfold lookupJob at hl
  cases hfind : st.jobs.find? (fun p => p.1 = id) with
  | none => rw [hfind] at hl; exact absurd hl (by simp)
  | some p =>
    rw [hfind] at hl
    have hmem := List.mem_of_find?_eq_some hfind
    have := hwf.2.1 p hmem
    simp at hl
    omega

/-- Shape of the scheduler state after `scheduleJob` installs nothing. -/
theorem scheduleJob_state_none (cronNext : String → Nat → Option Nat)
    (now : Nat) (st : SchedulerState) (db : Db) (sched : ScheduleData)
    (h : scheduleJobNext cronNext now sched = none) :
    scheduleJob cronNext now st db sched = (cancelJob st sched.id, db) := by
  simp [scheduleJob, h]

/-- Shape of the scheduler state after `scheduleJob` installs a job. -/
theorem scheduleJob_state_some (cronNext : String → Nat → Option Nat)
    (now : Nat) (st : SchedulerState) (db : Db) (sched : ScheduleData)
    (t : Nat) (h : scheduleJobNext cronNext now sched = some t) :
    scheduleJob cronNext now st db sched =
      ({ jobs := (sched.id, (cancelJob st sched.id).nextHandle) ::
           (cancelJob st sched.id).jobs
         live := (cancelJob st sched.id).nextHandle ::
           (cancelJob st sched.id).live
         nextHandle := (cancelJob st sched.id).nextHandle + 1 },
       updateSchedule db sched.id { next_run := some t }) := by
  simp [scheduleJob, h]

/-- No registry entry for an id survives `cancelJob` of that id. -/
theorem cancelJob_no_entry (st : SchedulerState) (id : Nat)
    (p : Nat × Nat) (hp : p ∈ (cancelJob st id).jobs) (hpid : p.1 = id) :
    False := by
  unfold cancelJob at hp
  cases hl : lookupJob st id with
  | none =>
    rw [hl] at hp
    unfold lookupJob at hl
    cases hfind : st.jobs.find? (fun q => q.1 = id) with
    | none =>
      have := List.find?_eq_none.mp hfind p hp
      simp [hpid] at this
    | some q => rw [hfind] at hl; exact absurd hl (by simp)
  | some h =>
    rw [hl] at hp
    have := (List.mem_filter.mp hp).2
    simp [hpid] at this

/-- C6: the Active Job registry holds at most one job per schedule id, and
`scheduleJob` first cancels the prior job for the id, so its timer is not
left alive alongside the new one; well-formedness of the registry state is
preserved. -/
theorem scheduleJob_single_active_job
    (cronNext : String → Nat → Option Nat) (now : Nat)
    (st : SchedulerState) (db : Db) (sched : ScheduleData) (hwf : WF st) :
    WF (scheduleJob cronNext now st db sched).1 ∧
    ((scheduleJob cronNext now st db sched).1.jobs.map Prod.fst).count sched.id ≤ 1 ∧
    (∀ h, lookupJob st sched.id = some h →
      h ∉ (scheduleJob cronNext now st db sched).1.live) := by
  have hwf1 : WF (cancelJob st sched.id) := cancelJob_WF st sched.id hwf
  obtain ⟨hjobs1, hbnd1, hlive1, hlbnd1⟩ := hwf1
  have hres : WF (scheduleJob cronNext now st db sched).1 := by
    cases hnext : scheduleJobNext cronNext now sched with
    | none =>
      rw [scheduleJob_state_none cronNext now st db sched hnext]
      exact ⟨hjobs1, hbnd1, hlive1, hlbnd1⟩
    | some t =>
      rw [scheduleJob_state_some cronNext now st db sched t hnext]
      refine ⟨?_, ?_, ?_, ?_⟩
      · refine List.Nodup.cons ?_ hjobs1
        intro hmem
        obtain ⟨p, hp, hpid⟩ := List.mem_map.mp hmem
        exact cancelJob_no_entry st sched.id p hp hpid
      · intro p hp
        rcases List.mem_cons.mp hp with heq | hmem
        · subst heq
          simp
        · have := hbnd1 p hmem
          simp only
          omega
      · refine List.Nodup.cons ?_ hlive1
        intro hmem
        have := hlbnd1 _ hmem
        omega
      · intro x hx
        rcases List.mem_cons.mp hx with hxeq | hxmem
        · simp only
          omega
        · have := hlbnd1 x hxmem
          simp only
          omega
  refine ⟨hres, ?_, ?_⟩
  · exact List.nodup_iff_count_le_one.mp hres.1 sched.id
  · intro h hl
    have hlt : h < st.nextHandle := lookupJob_lt_nextHandle st sched.id h hwf hl
    have hnotin1 : h ∉ (cancelJob st sched.id).live := by
      unfold cancelJob
      rw [hl]
      exact hwf.2.2.1.not_mem_erase
    have hnh : (cancelJob st sched.id).nextHandle = st.nextHandle :=
      cancelJob_nextHandle st sched.id
    cases hnext : scheduleJobNext cronNext now sched with
    | none =>
      rw [scheduleJob_state_none cronNext now st db sched hnext]
      exact hnotin1
    | some t =>
      rw [scheduleJob_state_some cronNext now st db sched t hnext]
      intro hmem
      rcases List.mem_cons.mp hmem with hxeq | hxmem
      · omega
      · exact hnotin1 hxmem

/-! ### Fixtures for concrete instantiation -/

/-- Cron library model: next invocation is one minute later. -/
def sampleCronNext : String → Nat → Option Nat := fun _ now => some (now + 60)

/-- Sample Xpression device record. -/
def sampleDeviceX : DeviceRecord :=
  { id := 1, name := "gfx1", type := "xpression", host := "10.0.0.1"
    port := 7788, enabled := true }

/-- Sample recurring take schedule record. -/
def sampleSchedRecTake : ScheduleRecord :=
  { id := 1, name := "morning take", device_id := 1, command_type := .take
    command_data := .ok ⟨some 7, none, none⟩, schedule_type := .recurring
    cron_expression := some "0 8 * * *", run_at := none, enabled := true
    last_run := none, next_run := none }

/-- Sample store holding the device and the recurring take schedule. -/
def sampleDb : Db :=
  { devices := [sampleDeviceX], schedules := [sampleSchedRecTake]
    logs := [], nextLogId := 1 }

/-- Joined scheduler row for the sample schedule. -/
def sampleSchedData : ScheduleData :=
  toScheduleData sampleSchedRecTake "10.0.0.1" 7788 "xpression"

/-- Sample one-time schedule row whose `run_at` (50) is already past. -/
def sampleSchedOncePast : ScheduleData :=
  { id := 1, name := "late once", device_id := 1, device_type := "xpression"
    host := "10.0.0.1", port := 7788, command_type := .take
    command_data := .ok ⟨some 7, none, none⟩, schedule_type := .once
    cron_expression := none, run_at := some 50 }

/-- Sample in-memory scheduler state with one live job for schedule 1. -/
def sampleState : SchedulerState :=
  { jobs := [(1, 0)], live := [0], nextHandle := 1 }

/-- Witness for C6: re-scheduling schedule 1 leaves no second registry entry
and the prior timer handle 0 is no longer live. -/
theorem scheduleJob_single_active_job_witness :
    WF sampleState ∧
    0 ∉ (scheduleJob sampleCronNext 100 sampleState sampleDb sampleSchedData).1.live := by
  have hwf : WF sampleState := by
    unfold WF sampleState
    refine ⟨by decide, by decide, by decide, by decide⟩
  exact ⟨hwf,
    (scheduleJob_single_active_job sampleCronNext 100 sampleState sampleDb
      sampleSchedData hwf).2.2 0 rfl⟩

/-- Patching never changes the record's identity. -/
theorem applyPatch_id (s : ScheduleRecord) (p : SchedulePatch) :
    (applyPatch s p).id = s.id := rfl

/-- Patching the record an id lookup finds patches what the lookup finds. -/
theorem find?_updateFirst_self (l : List ScheduleRecord) (id : Nat)
    (p : SchedulePatch) (rec : ScheduleRecord)
    (h : l.find? (fun s => s.id = id) = some rec) :
    (updateFirst l id p).find? (fun s => s.id = id) = some (applyPatch rec p) := by
  induction l with
  | nil => simp at h
  | cons s rest ih =>
    by_cases hs : s.id = id
    · rw [List.find?_cons_of_pos _ (by simp [hs])] at h
      have hrec : s = rec := by injection h
      subst hrec
      unfold updateFirst
      rw [if_pos hs]
      exact List.find?_cons_of_pos _ (by simp [applyPatch_id, hs])
    · rw [List.find?_cons_of_neg _ (by simp [hs])] at h
      unfold updateFirst
      rw [if_neg hs]
      rw [List.find?_cons_of_neg _ (by simp [hs])]
      exact ih h

/-- C8: a one-time schedule whose `runAt` is already past installs no Active
Job and leaves the store (hence `next_run`) untouched; whenever `scheduleJob`
does install a job, the registry gains it and the job's computed next fire
time is persisted into the schedule's `next_run`. -/
theorem scheduleJob_frame_effect (cronNext : String → Nat → Option Nat)
    (now : Nat) (st : SchedulerState) (db : Db) (sched : ScheduleData) :
    (∀ t, sched.schedule_type = .once → sched.run_at = some t → t ≤ now →
      scheduleJob cronNext now st db sched = (cancelJob st sched.id, db) ∧
      lookupJob (scheduleJob cronNext now st db sched).1 sched.id = none) ∧
    (∀ t rec, scheduleJobNext cronNext now sched = some t →
      getSchedule db sched.id = some rec →
      lookupJob (scheduleJob cronNext now st db sched).1 sched.id =
        some (cancelJob st sched.id).nextHandle ∧
      getSchedule (scheduleJob cronNext now st db sched).2 sched.id =
        some (applyPatch rec { next_run := some t })) := by
  constructor
  · intro t h1 h2 h3
    have hnext : scheduleJobNext cronNext now sched = none := by
      unfold scheduleJobNext
      rw [h1, h2]
      simp [Nat.not_lt.mpr h3]
    have hst := scheduleJob_state_none cronNext now st db sched hnext
    refine ⟨hst, ?_⟩
    rw [hst]
    exact lookupJob_cancel st sched.id
  · intro t rec hnext hrec
    have hst := scheduleJob_state_some cronNext now st db sched t hnext
    constructor
    · rw [hst]
      unfold lookupJob
      rw [List.find?_cons_of_pos _ (by simp)]
      rfl
    · rw [hst]
      exact find?_updateFirst_self db.schedules sched.id _ rec hrec

/-- Witness for C8: the past one-time schedule installs nothing and changes
nothing; installing the recurring schedule at time 100 persists
`next_run = 160` (the cron model's next invocation). -/
theorem scheduleJob_frame_effect_witness :
    (scheduleJob sampleCronNext 100 sampleState sampleDb sampleSchedOncePast =
      (cancelJob sampleState sampleSchedOncePast.id, sampleDb)) ∧
    getSchedule
      (scheduleJob sampleCronNext 100 sampleState sampleDb sampleSchedData).2
      sampleSchedData.id =
      some (applyPatch sampleSchedRecTake { next_run := some 160 }) :=
  ⟨((scheduleJob_frame_effect sampleCronNext 100 sampleState sampleDb
      sampleSchedOncePast).1 50 rfl rfl (by decide)).1,
    ((scheduleJob_frame_effect sampleCronNext 100 sampleState sampleDb
      sampleSchedData).2 160 sampleSchedRecTake rfl rfl).2⟩

/-! ### Execution pipeline lemmas -/

/-- Log creation touches no schedule record. -/
theorem createLog_schedules (db : Db) (sid : Option Nat) (did : Nat)
    (cmd : String) (stt : LogStatus) (resp : Option String) (now : Nat) :
    (createLog db sid did cmd stt resp now).1.schedules = db.schedules := rfl

/-- Schedule update touches no log row. -/
theorem updateSchedule_logs (db : Db) (id : Nat) (p : SchedulePatch) :
    (updateSchedule db id p).logs = db.logs := rfl

/-- Below the retention cap, `createLog` appends exactly its new row. -/
theorem createLog_logs_append (db : Db) (sid : Option Nat) (did : Nat)
    (cmd : String) (stt : LogStatus) (resp : Option String) (now : Nat)
    (hcap : db.logs.length < 10000) :
    (createLog db sid did cmd stt resp now).1.logs =
      db.logs ++ [(createLog db sid did cmd stt resp now).2] := by
  unfold createLog
  simp only
  rw [if_neg (by simp; omega)]

/-- A patch without an `enabled` field leaves `enabled` as it was. -/
theorem applyPatch_enabled_none (s : ScheduleRecord) (p : SchedulePatch)
    (hp : p.enabled = none) : (applyPatch s p).enabled = s.enabled := by
  simp [applyPatch, hp]

/-- A partial update without an `enabled` field preserves the `enabled` flag
seen through every id lookup. -/
theorem find?_updateFirst_enabled (l : List ScheduleRecord) (id : Nat)
    (p : SchedulePatch) (hp : p.enabled = none) (sid : Nat) :
    ((updateFirst l id p).find? (fun s => s.id = sid)).map (fun s => s.enabled) =
      (l.find? (fun s => s.id = sid)).map (fun s => s.enabled) := by
  induction l with
  | nil => rfl
  | cons s rest ih =>
    unfold updateFirst
    by_cases hs : s.id = id
    · rw [if_pos hs]
      by_cases hsid : s.id = sid
      · rw [List.find?_cons_of_pos _ (by simp [applyPatch_id, hsid]),
          List.find?_cons_of_pos _ (by simp [hsid])]
        simp [applyPatch_enabled_none s p hp]
      · rw [List.find?_cons_of_neg _ (by simp [applyPatch_id, hsid]),
          List.find?_cons_of_neg _ (by simp [hsid])]
    · rw [if_neg hs]
      by_cases hsid : s.id = sid
      · rw [List.find?_cons_of_pos _ (by simp [hsid]),
          List.find?_cons_of_pos _ (by simp [hsid])]
      · rw [List.find?_cons_of_neg _ (by simp [hsid]),
          List.find?_cons_of_neg _ (by simp [hsid])]
        exact ih

/-- The logging tail appends exactly its one log row (below the cap). -/
theorem execFinish_logs (now : Nat) (jnr : Option Nat) (db : Db)
    (sched : ScheduleData) (c : String) (r : Result)
    (hcap : db.logs.length < 10000) :
    (execFinish now jnr db sched c r).1.logs =
      db.logs ++ [(execFinish now jnr db sched c r).2.2] := by
  unfold execFinish
  cases jnr <;>
    simp only [updateSchedule_logs] <;>
    exact createLog_logs_append db (some sched.id) sched.device_id c _ _ now hcap

/-- The logging tail returns the branch's result unchanged. -/
theorem execFinish_result (now : Nat) (jnr : Option Nat) (db : Db)
    (sched : ScheduleData) (c : String) (r : Result) :
    (execFinish now jnr db sched c r).2.1 = r := by
  unfold execFinish
  cases jnr <;> rfl

/-- Status logged on the row: `success` exactly when the result succeeded. -/
theorem execFinish_log_status (now : Nat) (jnr : Option Nat) (db : Db)
    (sched : ScheduleData) (c : String) (r : Result) :
    (execFinish now jnr db sched c r).2.2.status =
      (if r.success then LogStatus.success else LogStatus.error) := by
  unfold execFinish
  cases jnr <;> rfl

/-- Response logged on the row: the result's message. -/
theorem execFinish_log_response (now : Nat) (jnr : Option Nat) (db : Db)
    (sched : ScheduleData) (c : String) (r : Result) :
    (execFinish now jnr db sched c r).2.2.response = some r.message := by
  unfold execFinish
  cases jnr <;> rfl

/-- Command string logged on the row: the branch's command string. -/
theorem execFinish_log_command (now : Nat) (jnr : Option Nat) (db : Db)
    (sched : ScheduleData) (c : String) (r : Result) :
    (execFinish now jnr db sched c r).2.2.command = c := by
  unfold execFinish
  cases jnr <;> rfl

/-- An update that does not carry `enabled` preserves the flag every id
lookup sees. -/
theorem getSchedule_update_enabled (db : Db) (id : Nat) (p : SchedulePatch)
    (hp : p.enabled = none) (sid : Nat) :
    (getSchedule (updateSchedule db id p) sid).map (fun s => s.enabled) =
      (getSchedule db sid).map (fun s => s.enabled) :=
  find?_updateFirst_enabled db.schedules id p hp sid

/-- The logging tail never touches any schedule's `enabled` flag. -/
theorem execFinish_preserves_enabled (now : Nat) (jnr : Option Nat) (db : Db)
    (sched : ScheduleData) (c : String) (r : Result) (sid : Nat) :
    (getSchedule (execFinish now jnr db sched c r).1 sid).map (fun s => s.enabled) =
      (getSchedule db sid).map (fun s => s.enabled) := by
  unfold execFinish
  cases jnr with
  | none => exact getSchedule_update_enabled _ _ _ rfl sid
  | some t =>
    exact (getSchedule_update_enabled _ _ _ rfl sid).trans
      (getSchedule_update_enabled _ _ _ rfl sid)

/-- Reduction of `executeCommand` on a parseable payload. -/
theorem executeCommand_eq_ok (env : LinkEnv) (now : Nat) (jnr : Option Nat)
    (db : Db) (sched : ScheduleData) (cd : CommandData)
    (hcd : sched.command_data = .ok cd) :
    executeCommand env now jnr db sched =
      .ok (execFinish now jnr db sched (commandAndResult env sched cd).1
        (commandAndResult env sched cd).2) := by
  unfold executeCommand
  rw [hcd]

/-- Branch outcome when the payload misses the required field for its kind. -/
theorem commandAndResult_invalid (env : LinkEnv) (sched : ScheduleData)
    (cd : CommandData) (h : hasRequiredField sched.command_type cd = false) :
    commandAndResult env sched cd = ("UNKNOWN", ⟨false, "Invalid command data"⟩) := by
  cases htype : sched.command_type with
  | take =>
    rw [htype] at h
    simp only [hasRequiredField] at h
    cases htid : cd.takeId with
    | some t => rw [htid] at h; simp at h
    | none => simp only [commandAndResult, htype, htid]
  | route =>
    rw [htype] at h
    simp only [hasRequiredField] at h
    cases hsrc : cd.source with
    | none => simp only [commandAndResult, htype, hsrc]
    | some s =>
      rw [hsrc] at h
      simp at h
      cases hdst : cd.destination with
      | none => simp only [commandAndResult, htype, hsrc, hdst]
      | some d => rw [hdst] at h; simp at h

/-- Branch outcome of a take whose pool call rejects. -/
theorem commandAndResult_take_reject (env : LinkEnv) (sched : ScheduleData)
    (cd : CommandData) (t : Nat) (e : String)
    (htype : sched.command_type = .take) (htid : cd.takeId = some t)
    (henv : env.sendTake sched.device_id sched.host sched.port t = .error e) :
    commandAndResult env sched cd = ("TAKE " ++ toString t, ⟨false, e⟩) := by
  simp only [commandAndResult, htype, htid, henv]

/-- Branch outcome of a route whose pool call rejects. -/
theorem commandAndResult_route_reject (env : LinkEnv) (sched : ScheduleData)
    (cd : CommandData) (s d : Nat) (e : String)
    (htype : sched.command_type = .route) (hsrc : cd.source = some s)
    (hdst : cd.destination = some d)
    (henv : env.route sched.device_id sched.host sched.port s d = .error e) :
    commandAndResult env sched cd =
      ("ROUTE " ++ toString s ++ " → " ++ toString d, ⟨false, e⟩) := by
  simp only [commandAndResult, htype, hsrc, hdst, henv]

/-- Reduction of `executeCommand` on an unparseable payload. -/
theorem executeCommand_eq_error (env : LinkEnv) (now : Nat) (jnr : Option Nat)
    (db : Db) (sched : ScheduleData) (e : String)
    (hcd : sched.command_data = .error e) :
    executeCommand env now jnr db sched = .error e := by
  unfold executeCommand
  rw [hcd]

/-- A completed pipeline run leaves every schedule's `enabled` flag as it
found it. -/
theorem executeCommand_preserves_enabled (env : LinkEnv) (now : Nat)
    (jnr : Option Nat) (db : Db) (sched : ScheduleData)
    (db' : Db) (r : Result) (log : LogRecord)
    (hex : executeCommand env now jnr db sched = .ok (db', r, log)) (sid : Nat) :
    (getSchedule db' sid).map (fun s => s.enabled) =
      (getSchedule db sid).map (fun s => s.enabled) := by
  cases hcd : sched.command_data with
  | error e =>
    rw [executeCommand_eq_error env now jnr db sched e hcd] at hex
    exact absurd hex (by simp)
  | ok cd =>
    rw [executeCommand_eq_ok env now jnr db sched cd hcd] at hex
    have hdb : db' =
        (execFinish now jnr db sched (commandAndResult env sched cd).1
          (commandAndResult env sched cd).2).1 := by
      have := (Except.ok.injEq _ _).mp hex.symm
      exact congrArg Prod.fst this
    rw [hdb]
    exact execFinish_preserves_enabled now jnr db sched _ _ sid

/-! ### Fixtures for the pipeline claims -/

/-- Link layer whose pool calls always resolve successfully. -/
def sampleEnvOk : LinkEnv :=
  { sendTake := fun _ _ _ _ => .ok ⟨true, "OK"⟩
    route := fun _ _ _ _ _ => .ok ⟨true, "OK"⟩ }

/-- Scheduler row whose stored `command_data` string is not valid JSON. -/
def sampleSchedParseErr : ScheduleData :=
  { id := 1, name := "unparseable", device_id := 1, device_type := "xpression"
    host := "10.0.0.1", port := 7788, command_type := .take
    command_data := .error "Unexpected token o in JSON"
    schedule_type := .recurring, cron_expression := some "0 8 * * *"
    run_at := none }

/-- Take schedule record whose parsed payload misses `takeId`. -/
def sampleSchedRecNoTakeId : ScheduleRecord :=
  { id := 1, name := "bad payload", device_id := 1, command_type := .take
    command_data := .ok ⟨none, none, none⟩, schedule_type := .recurring
    cron_expression := some "0 8 * * *", run_at := none, enabled := true
    last_run := none, next_run := none }

/-- Store holding the device and the missing-field take schedule. -/
def sampleDbNoTakeId : Db :=
  { devices := [sampleDeviceX], schedules := [sampleSchedRecNoTakeId]
    logs := [], nextLogId := 1 }

/-- One-time take schedule record, enabled, with a future `run_at`. -/
def sampleSchedRecOnce : ScheduleRecord :=
  { id := 1, name := "one shot", device_id := 1, command_type := .take
    command_data := .ok ⟨some 7, none, none⟩, schedule_type := .once
    cron_expression := none, run_at := some 500, enabled := true
    last_run := none, next_run := none }

/-- Store holding the device and the enabled one-time schedule. -/
def sampleDbOnce : Db :=
  { devices := [sampleDeviceX], schedules := [sampleSchedRecOnce]
    logs := [], nextLogId := 1 }

/-! ### C2: pipeline totality and single log row -/

/-- Counterexample to C2 as stated: a schedule record whose `command_data`
string does not parse makes `executeCommand` throw (the `JSON.parse` sits
before the `try` block), and no CommandLog row is appended. -/
theorem executeCommand_parse_throw_counterexample :
    executeCommand sampleEnvOk 0 none sampleDb sampleSchedParseErr =
      .error "Unexpected token o in JSON" := rfl

/-- C2 (amended): for every schedule record whose `command_data` parses, one
pipeline run returns normally and appends exactly one CommandLog row; a
payload missing the required field for its kind yields the failure result
`"Invalid command data"` logged with status `error` and command `"UNKNOWN"`,
and a rejected pool call (connection failure, timeout) is caught and becomes
a failure result logged the same way. -/
theorem executeCommand_no_throw_one_log (env : LinkEnv) (now : Nat)
    (jnr : Option Nat) (db : Db) (sched : ScheduleData) (cd : CommandData)
    (hcd : sched.command_data = .ok cd) (hcap : db.logs.length < 10000) :
    ∃ db' r log, executeCommand env now jnr db sched = .ok (db', r, log) ∧
      db'.logs = db.logs ++ [log] ∧
      log.status = (if r.success then LogStatus.success else LogStatus.error) ∧
      log.response = some r.message ∧
      (hasRequiredField sched.command_type cd = false →
        r = ⟨false, "Invalid command data"⟩ ∧ log.command = "UNKNOWN" ∧
        log.status = .error) ∧
      (∀ t e, sched.command_type = .take → cd.takeId = some t →
        env.sendTake sched.device_id sched.host sched.port t = .error e →
        r = ⟨false, e⟩) ∧
      (∀ s d e, sched.command_type = .route → cd.source = some s →
        cd.destination = some d →
        env.route sched.device_id sched.host sched.port s d = .error e →
        r = ⟨false, e⟩) := by
  refine ⟨(execFinish now jnr db sched (commandAndResult env sched cd).1
      (commandAndResult env sched cd).2).1,
    (commandAndResult env sched cd).2,
    (execFinish now jnr db sched (commandAndResult env sched cd).1
      (commandAndResult env sched cd).2).2.2,
    executeCommand_eq_ok env now jnr db sched cd hcd,
    execFinish_logs now jnr db sched _ _ hcap,
    execFinish_log_status now jnr db sched _ _,
    execFinish_log_response now jnr db sched _ _, ?_, ?_, ?_⟩
  · intro h
    have hcr := commandAndResult_invalid env sched cd h
    refine ⟨?_, ?_, ?_⟩
    · rw [hcr]
    · rw [execFinish_log_command now jnr db sched _ _, hcr]
    · rw [execFinish_log_status now jnr db sched _ _, hcr]
      simp
  · intro t e htype htid henv
    rw [commandAndResult_take_reject env sched cd t e htype htid henv]
  · intro s d e htype hsrc hdst henv
    rw [commandAndResult_route_reject env sched cd s d e htype hsrc hdst henv]

/-- Witness for C2 on the sample take schedule. -/
theorem executeCommand_no_throw_one_log_witness :
    sampleSchedData.command_data = .ok ⟨some 7, none, none⟩ ∧
    sampleDb.logs.length < 10000 ∧
    ∃ db' r log,
      executeCommand sampleEnvOk 0 none sampleDb sampleSchedData =
        .ok (db', r, log) ∧ db'.logs = sampleDb.logs ++ [log] := by
  refine ⟨rfl, by decide, ?_⟩
  obtain ⟨db', r, log, h1, h2, -⟩ := executeCommand_no_throw_one_log sampleEnvOk
    0 none sampleDb sampleSchedData ⟨some 7, none, none⟩ rfl (by decide)
  exact ⟨db', r, log, h1, h2⟩

/-! ### C1: what runNow returns to its caller -/

/-- Counterexample to C1 as stated: schedule 1 and device 1 both exist, the
pipeline run fails (missing `takeId` logs an `error` row), yet `runNow`
returns `success := true, "Command executed"`. -/
theorem runNow_ignores_pipeline_failure_counterexample :
    (runNow sampleEnvOk 0 none sampleDbNoTakeId 1).toOption.map
      (fun p => (p.2, p.1.logs.map (fun l => l.status))) =
      some (⟨true, "Command executed"⟩, [.error]) := rfl

/-- C1 (amended): when the schedule or device lookup fails, `runNow` returns
the corresponding failure result; when both records exist (and the payload
parses), it runs the pipeline once and returns
`success := true, "Command executed"` regardless of the pipeline's own
success or failure, which is recorded only in the CommandLog. -/
theorem runNow_returns_fixed_success (env : LinkEnv) (now : Nat)
    (jnr : Option Nat) (db : Db) (id : Nat) :
    (getSchedule db id = none →
      runNow env now jnr db id = .ok (db, ⟨false, "Schedule not found"⟩)) ∧
    (∀ sr, getSchedule db id = some sr → getDevice db sr.device_id = none →
      runNow env now jnr db id = .ok (db, ⟨false, "Device not found"⟩)) ∧
    (∀ sr dev cd, getSchedule db id = some sr →
      getDevice db sr.device_id = some dev → sr.command_data = .ok cd →
      ∃ db', runNow env now jnr db id =
        .ok (db', ⟨true, "Command executed"⟩)) := by
  refine ⟨?_, ?_, ?_⟩
  · intro h
    simp only [runNow, h]
  · intro sr h1 h2
    simp only [runNow, h1, h2]
  · intro sr dev cd h1 h2 hcd
    have hcd' : (toScheduleData sr dev.host dev.port dev.type).command_data =
        .ok cd := hcd
    refine ⟨(execFinish now jnr db (toScheduleData sr dev.host dev.port dev.type)
      (commandAndResult env (toScheduleData sr dev.host dev.port dev.type) cd).1
      (commandAndResult env (toScheduleData sr dev.host dev.port dev.type) cd).2).1,
      ?_⟩
    simp only [runNow, h1, h2,
      executeCommand_eq_ok env now jnr db _ cd hcd']

/-- Witness for C1: a missing schedule id yields the not-found failure, and
on the store whose schedule's payload misses its `takeId`, `runNow` still
reports success. -/
theorem runNow_returns_fixed_success_witness :
    runNow sampleEnvOk 0 none sampleDb 99 =
      .ok (sampleDb, ⟨false, "Schedule not found"⟩) ∧
    ∃ db', runNow sampleEnvOk 0 none sampleDbNoTakeId 1 =
      .ok (db', ⟨true, "Command executed"⟩) :=
  ⟨(runNow_returns_fixed_success sampleEnvOk 0 none sampleDb 99).1 rfl,
    (runNow_returns_fixed_success sampleEnvOk 0 none sampleDbNoTakeId 1).2.2
      sampleSchedRecNoTakeId sampleDeviceX ⟨none, none, none⟩ rfl rfl rfl⟩

/-! ### C7: which execution paths disable a one-time schedule -/

/-- Counterexample to C7 as stated: running the enabled one-time schedule 1
via `runNow` completes, yet the schedule's `enabled` flag is still `true`
afterwards — only the timer callback disables one-time schedules. -/
theorem runNow_leaves_once_enabled_counterexample :
    (runNow sampleEnvOk 0 none sampleDbOnce 1).toOption.map
      (fun p => (getSchedule p.1 1).map (fun s => s.enabled)) =
      some (some true) := rfl

/-- C7 (amended): the timer callback of a one-time schedule sets
`enabled = false` in the store after its pipeline run; `runNow`, which calls
the pipeline directly, leaves every schedule's `enabled` flag unchanged. -/
theorem once_disable_timer_only (env : LinkEnv) (now : Nat)
    (jnr : Option Nat) (db : Db) :
    (∀ sched rec, getSchedule db sched.id = some rec →
      (getSchedule (onceTimerFire env now jnr db sched) sched.id).map
        (fun s => s.enabled) = some false) ∧
    (∀ id db' r, runNow env now jnr db id = .ok (db', r) →
      ∀ sid, (getSchedule db' sid).map (fun s => s.enabled) =
        (getSchedule db sid).map (fun s => s.enabled)) := by
  constructor
  · intro sched rec hrec
    unfold onceTimerFire
    have main : ∀ db1 : Db,
        (getSchedule db1 sched.id).map (fun s => s.enabled) = some rec.enabled →
        (getSchedule (updateSchedule db1 sched.id { enabled := some false })
          sched.id).map (fun s => s.enabled) = some false := by
      intro db1 hpres
      obtain ⟨rec1, hrec1, -⟩ := Option.map_eq_some'.mp hpres
      unfold getSchedule updateSchedule
      rw [find?_updateFirst_self db1.schedules sched.id _ rec1 hrec1]
      simp [applyPatch]
    cases hex : executeCommand env now jnr db sched with
    | error e =>
      exact main db (by rw [hrec]; rfl)
    | ok triple =>
      obtain ⟨db2, r, log⟩ := triple
      refine main db2 ?_
      rw [executeCommand_preserves_enabled env now jnr db sched db2 r log hex
        sched.id, hrec]
      rfl
  · intro id db' r h sid
    cases h1 : getSchedule db id with
    | none =>
      simp only [runNow, h1, Except.ok.injEq, Prod.mk.injEq] at h
      obtain ⟨hdb, -⟩ := h
      subst hdb
      rfl
    | some sr =>
      cases h2 : getDevice db sr.device_id with
      | none =>
        simp only [runNow, h1, h2, Except.ok.injEq, Prod.mk.injEq] at h
        obtain ⟨hdb, -⟩ := h
        subst hdb
        rfl
      | some dev =>
        cases hex : executeCommand env now jnr db
            (toScheduleData sr dev.host dev.port dev.type) with
        | error e =>
          simp [runNow, h1, h2, hex] at h
        | ok triple =>
          obtain ⟨db2, r2, log2⟩ := triple
          simp only [runNow, h1, h2, hex, Except.ok.injEq, Prod.mk.injEq] at h
          obtain ⟨hdb, -⟩ := h
          subst hdb
          exact executeCommand_preserves_enabled env now jnr db _ db2 r2 log2
            hex sid

/-- Witness for C7: the timer callback on the sample store flips schedule 1
to disabled. -/
theorem once_disable_timer_only_witness :
    (getSchedule (onceTimerFire sampleEnvOk 0 none sampleDbOnce
      (toScheduleData sampleSchedRecOnce "10.0.0.1" 7788 "xpression"))
      (toScheduleData sampleSchedRecOnce "10.0.0.1" 7788 "xpression").id).map
      (fun s => s.enabled) = some false :=
  (once_disable_timer_only sampleEnvOk 0 none sampleDbOnce).1
    (toScheduleData sampleSchedRecOnce "10.0.0.1" 7788 "xpression")
    sampleSchedRecOnce rfl

/-! ### SW-P-08 framing lemmas (C3) -/

/-- A pair-free byte list makes the end-of-message scan come up empty. -/
theorem takeThroughPair_of_no_pair (l : List Nat) (h : hasPair l = false) :
    takeThroughPair l = none := by
  induction l with
  | nil => rfl
  | cons a rest ih =>
    cases rest with
    | nil => rfl
    | cons b rest2 =>
      simp only [hasPair, Bool.or_eq_false_iff] at h
      have hne : ¬(a = EOM ∧ b = EOM2) := by
        intro ⟨h1, h2⟩
        rw [h1, h2] at h
        simp at h
      have hrec : takeThroughPair (b :: rest2) = none := ih h.2
      simp only [takeThroughPair, if_neg hne, hrec]

/-- A pair-free left part stays pair-free. -/
theorem hasPair_append_left (p q : List Nat)
    (h : hasPair (p ++ q) = false) : hasPair p = false := by
  induction p with
  | nil => rfl
  | cons a p' ih =>
    cases p' with
    | nil => rfl
    | cons b rest =>
      simp only [List.cons_append] at h
      simp only [hasPair, Bool.or_eq_false_iff] at h ⊢
      exact ⟨h.1, ih h.2⟩

/-- The scan finds exactly the closing pair of a frame body whose interior
holds no earlier pair. -/
theorem takeThroughPair_closes (mid : List Nat)
    (h : hasPair (mid ++ [EOM]) = false) :
    takeThroughPair (mid ++ [EOM, EOM2]) = some (mid ++ [EOM, EOM2], []) := by
  induction mid with
  | nil => rfl
  | cons a mid' ih =>
    cases hmid : mid' with
    | nil =>
      subst hmid
      have hae : ¬(a = EOM ∧ EOM = EOM2) := by
        intro ⟨h1, h2⟩
        simp [EOM, EOM2] at h2
      simp only [List.nil_append, List.cons_append, takeThroughPair, if_neg hae]
      rfl
    | cons b rest =>
      subst hmid
      simp only [List.cons_append, hasPair, Bool.or_eq_false_iff] at h
      have hne : ¬(a = EOM ∧ b = EOM2) := by
        intro ⟨h1, h2⟩
        rw [h1, h2] at h
        simp at h
      have hrec := ih h.2
      simp only [List.cons_append] at hrec ⊢
      simp only [takeThroughPair, if_neg hne, hrec]

/-- Decomposition of a well-formed frame: a SOM byte, an interior free of the
closing pair, and the final `EOM, EOM2`. -/
theorem validFrame_decomp (f : List Nat) (hf : validFrame f = true) :
    ∃ mid, f = SOM :: (mid ++ [EOM, EOM2]) ∧ hasPair (mid ++ [EOM]) = false := by
  cases f with
  | nil => simp [validFrame] at hf
  | cons s rest =>
    simp only [validFrame, Bool.and_eq_true, decide_eq_true_eq,
      Bool.not_eq_true'] at hf
    obtain ⟨⟨⟨⟨hs, hlen⟩, hlast⟩, hlast2⟩, hpair⟩ := hf
    have hne : rest ≠ [] := by
      intro h
      subst h
      simp at hlast
    have hrest : rest.dropLast ++ [EOM2] = rest := by
      have := List.dropLast_append_getLast hne
      rw [List.getLast?_eq_getLast rest hne] at hlast
      have hl : rest.getLast hne = EOM2 := by injection hlast
      rw [hl] at this
      exact this
    have hne2 : rest.dropLast ≠ [] := by
      intro h
      rw [h] at hlast2
      simp at hlast2
    have hrest2 : rest.dropLast.dropLast ++ [EOM] = rest.dropLast := by
      have := List.dropLast_append_getLast hne2
      rw [List.getLast?_eq_getLast rest.dropLast hne2] at hlast2
      have hl : rest.dropLast.getLast hne2 = EOM := by injection hlast2
      rw [hl] at this
      exact this
    refine ⟨rest.dropLast.dropLast, ?_, ?_⟩
    · rw [hs]
      have : rest.dropLast.dropLast ++ [EOM, EOM2] =
          (rest.dropLast.dropLast ++ [EOM]) ++ [EOM2] := by
        simp [List.append_assoc]
      rw [this, hrest2, hrest]
    · rw [hrest2]
      exact hpair

/-- A well-formed frame delivered whole is emitted whole, emptying the
buffer. -/
theorem processResponse_whole (f : List Nat) (hf : validFrame f = true) :
    processResponse f = ([f], []) := by
  obtain ⟨mid, hshape, hpair⟩ := validFrame_decomp f hf
  subst hshape
  have hsom : splitFirstSOM (SOM :: (mid ++ [EOM, EOM2])) =
      some ([], mid ++ [EOM, EOM2]) := by
    simp [splitFirstSOM]
  simp only [processResponse, hsom, takeThroughPair_closes mid hpair]

/-- A proper leading part of a well-formed frame emits nothing and stays
buffered. -/
theorem processResponse_proper_lead (f : List Nat) (hf : validFrame f = true)
    (p q : List Nat) (hpq : p ++ q = f) (hq : q ≠ []) :
    processResponse p = ([], p) := by
  obtain ⟨mid, hshape, hpair⟩ := validFrame_decomp f hf
  cases p with
  | nil => rfl
  | cons a p' =>
    have ha : a = SOM := by
      rw [hshape] at hpq
      simp only [List.cons_append] at hpq
      injection hpq with h1 _
    subst ha
    have hp' : p' ++ q = mid ++ [EOM, EOM2] := by
      rw [hshape] at hpq
      simp only [List.cons_append] at hpq
      injection hpq with _ h2
    have hlen : p'.length ≤ (mid ++ [EOM]).length := by
      have h1 : p'.length + q.length = mid.length + 2 := by
        have := congrArg List.length hp'
        simpa using this
      have h2 : 1 ≤ q.length := by
        cases q with
        | nil => exact absurd rfl hq
        | cons x xs => simp
      simp only [List.length_append, List.length_cons, List.length_nil]
      omega
    have hp'take : p' = (mid ++ [EOM]).take p'.length := by
      have h1 : p' = (p' ++ q).take p'.length := by simp
      rw [hp'] at h1
      have h2 : mid ++ [EOM, EOM2] = (mid ++ [EOM]) ++ [EOM2] := by
        simp [List.append_assoc]
      rw [h2, List.take_append_of_le_length hlen] at h1
      exact h1
    have hnp : hasPair p' = false := by
      rw [hp'take]
      have := List.take_append_drop p'.length (mid ++ [EOM])
      exact hasPair_append_left _ _ (by rw [this]; exact hpair)
    have hsom : splitFirstSOM (SOM :: p') = some ([], p') := by
      simp [splitFirstSOM]
    simp only [processResponse, hsom, takeThroughPair_of_no_pair p' hnp]

/-- Feeding only empty chunks changes nothing. -/
theorem swpFeed_empty_chunks (em : List (List Nat)) (rest : List (List Nat))
    (h : ∀ c ∈ rest, c = []) : List.foldl swpFeed (em, []) rest = (em, []) := by
  induction rest with
  | nil => rfl
  | cons c rest' ih =>
    have hc : c = [] := h c (by simp)
    subst hc
    have hstep : swpFeed (em, ([] : List Nat)) [] = (em, []) := by
      simp [swpFeed, processResponse, splitFirstSOM]
    rw [List.foldl_cons, hstep]
    exact ih (fun c hc => h c (by simp [hc]))

/-- Main fragmentation induction: starting from a proper leading part of the
frame, feeding the remaining chunks emits the frame exactly once. -/
theorem swpFeed_aux (f : List Nat) (hf : validFrame f = true)
    (chunks : List (List Nat)) :
    ∀ p em, p ++ chunks.flatten = f → p ≠ f →
      List.foldl swpFeed (em, p) chunks = (em ++ [f], []) := by
  induction chunks with
  | nil =>
    intro p em hpf hne
    simp at hpf
    exact absurd hpf hne
  | cons c rest ih =>
    intro p em hpf hne
    have hassoc : (p ++ c) ++ rest.flatten = f := by
      simpa [List.append_assoc] using hpf
    by_cases hfull : p ++ c = f
    · have hrest : rest.flatten = [] := by
        rw [hfull] at hassoc
        have : f ++ rest.flatten = f ++ [] := by simpa using hassoc
        exact List.append_cancel_left this
      have hstep : swpFeed (em, p) c = (em ++ [f], []) := by
        simp only [swpFeed, hfull, processResponse_whole f hf]
      rw [List.foldl_cons, hstep]
      exact swpFeed_empty_chunks (em ++ [f]) rest
        (List.flatten_eq_nil_iff.mp hrest)
    · have hq : rest.flatten ≠ [] := by
        intro h
        rw [h] at hassoc
        simp at hassoc
        exact hfull hassoc
      have hpr : processResponse (p ++ c) = ([], p ++ c) :=
        processResponse_proper_lead f hf (p ++ c) rest.flatten hassoc hq
      have hstep : swpFeed (em, p) c = (em, p ++ c) := by
        simp only [swpFeed, hpr]
        simp
      rw [List.foldl_cons, hstep]
      exact ih (p ++ c) em hassoc hfull

/-- C3 (amended): a well-formed frame delivered across any number of partial
chunks is emitted exactly once, byte-identical to delivering it whole, with
the buffer advanced past it; but each processing pass emits at most one
frame — a further complete frame in the remainder stays buffered until the
next `data` event. -/
theorem swp_frame_fragmentation (f : List Nat) (chunks : List (List Nat))
    (hf : validFrame f = true) (hjoin : chunks.flatten = f) :
    swpFeedAll chunks = ([f], []) ∧
    processResponse f = ([f], []) ∧
    (∀ buf, (processResponse buf).1.length ≤ 1) := by
  refine ⟨?_, processResponse_whole f hf, ?_⟩
  · have hne : ([] : List Nat) ≠ f := by
      intro h
      obtain ⟨mid, hshape, -⟩ := validFrame_decomp f hf
      rw [hshape] at h
      simp at h
    have := swpFeed_aux f hf chunks [] [] (by simpa using hjoin) (fun h => hne h)
    simpa [swpFeedAll] using this
  · intro buf
    unfold processResponse
    cases splitFirstSOM buf with
    | none => simp
    | some pr =>
      cases htp : takeThroughPair pr.2 with
      | none => simp [htp]
      | some sr => simp [htp]

/-- Sample well-formed frame: SOM, payload byte 5, checksum 5, EOM, EOM2. -/
def swpSampleFrame : List Nat := [16, 5, 5, 16, 17]

/-- Counterexample to C3 as stated: with two complete frames in the buffer,
one processing pass emits only the first; the remainder left in the buffer is
itself a complete well-formed frame, yet it is not emitted in the same
pass. -/
theorem processResponse_second_frame_counterexample :
    validFrame swpSampleFrame = true ∧
    processResponse (swpSampleFrame ++ swpSampleFrame) =
      ([swpSampleFrame], swpSampleFrame) := ⟨by decide, by decide⟩

/-- Witness for C3: the sample frame split into two chunks is emitted once,
identical to the whole frame. -/
theorem swp_frame_fragmentation_witness :
    validFrame swpSampleFrame = true ∧
    ([[16, 5], [5, 16, 17]] : List (List Nat)).flatten = swpSampleFrame ∧
    swpFeedAll [[16, 5], [5, 16, 17]] = ([swpSampleFrame], []) :=
  ⟨by decide, rfl,
    (swp_frame_fragmentation swpSampleFrame [[16, 5], [5, 16, 17]]
      (by decide) rfl).1⟩

/-! ### RossTalk framing lemmas (C9) -/

/-- Unfolding equation for the two-or-more-characters case of `splitCRLF`. -/
theorem splitCRLF_cons_cons (c1 c2 : Char) (rest2 : List Char) :
    splitCRLF (c1 :: c2 :: rest2) =
      if c1 = '\r' ∧ c2 = '\n' then [] :: splitCRLF rest2
      else
        match splitCRLF (c2 :: rest2) with
        | seg :: segs => (c1 :: seg) :: segs
        | [] => [[c1]] := rfl

/-- A CRLF-free string is one single segment. -/
theorem splitCRLF_no_crlf (t : List Char) (h : hasCRLF t = false) :
    splitCRLF t = [t] := by
  induction t with
  | nil => rfl
  | cons c rest ih =>
    cases rest with
    | nil => rfl
    | cons d rest2 =>
      simp only [hasCRLF, Bool.or_eq_false_iff] at h
      have hne : ¬(c = '\r' ∧ d = '\n') := by
        intro ⟨h1, h2⟩
        rw [h1, h2] at h
        simp at h
      have hrec := ih h.2
      rw [splitCRLF_cons_cons, if_neg hne, hrec]

/-- Splitting peels off the first CRLF-terminated segment. -/
theorem splitCRLF_append_crlf (s1 r : List Char) (h : hasCRLF s1 = false) :
    splitCRLF (s1 ++ '\r' :: '\n' :: r) = s1 :: splitCRLF r := by
  induction s1 with
  | nil =>
    rw [List.nil_append, splitCRLF_cons_cons, if_pos ⟨rfl, rfl⟩]
  | cons c s1' ih =>
    cases hs1 : s1' with
    | nil =>
      subst hs1
      have hne : ¬(c = '\r' ∧ '\r' = '\n') := by
        intro ⟨_, h2⟩
        simp at h2
      have hinner : splitCRLF ('\r' :: '\n' :: r) = [] :: splitCRLF r := by
        rw [splitCRLF_cons_cons, if_pos ⟨rfl, rfl⟩]
      rw [List.cons_append, List.nil_append, splitCRLF_cons_cons, if_neg hne,
        hinner]
    | cons d rest =>
      subst hs1
      simp only [hasCRLF, Bool.or_eq_false_iff] at h
      have hne : ¬(c = '\r' ∧ d = '\n') := by
        intro ⟨h1, h2⟩
        rw [h1, h2] at h
        simp at h
      have hrec := ih h.2
      simp only [List.cons_append] at hrec ⊢
      rw [splitCRLF_cons_cons, if_neg hne, hrec]

/-- Splitting the wire image of CRLF-terminated segments plus a partial tail
recovers the segments and the tail. -/
theorem splitCRLF_join (segs : List (List Char)) (t : List Char)
    (hsegs : ∀ s ∈ segs, hasCRLF s = false) (ht : hasCRLF t = false) :
    splitCRLF (joinCRLF segs t) = segs ++ [t] := by
  induction segs with
  | nil =>
    simp only [joinCRLF, List.map_nil, List.flatten_nil, List.nil_append]
    rw [splitCRLF_no_crlf t ht]
  | cons s rest ih =>
    have h1 := hsegs s (by simp)
    have hrest : ∀ x ∈ rest, hasCRLF x = false := fun x hx =>
      hsegs x (by simp [hx])
    have hshape : joinCRLF (s :: rest) t =
        s ++ '\r' :: '\n' :: joinCRLF rest t := by
      simp [joinCRLF, List.append_assoc]
    rw [hshape, splitCRLF_append_crlf s _ h1, ih hrest]
    rfl

/-- C9 (amended): every complete CRLF-terminated segment whose content is
nonempty after trimming is emitted as one response event, trimmed, in arrival
order; empty or whitespace-only segments are dropped; the partial trailing
segment is retained as the buffer; and `sendCommand` resolves with the first
such emitted (trimmed) line, not the raw segment. -/
theorem rt_framing (segs : List (List Char)) (t b c : List Char)
    (hsegs : ∀ s ∈ segs, hasCRLF s = false) (ht : hasCRLF t = false)
    (hbc : b ++ c = joinCRLF segs t) :
    rtOnData b c = ((segs.map trimChars).filter (fun l => !l.isEmpty), t) ∧
    rtSendCommandResolution b c =
      ((segs.map trimChars).filter (fun l => !l.isEmpty)).head? := by
  have hmain : rtOnData b c =
      ((segs.map trimChars).filter (fun l => !l.isEmpty), t) := by
    unfold rtOnData
    rw [hbc, splitCRLF_join segs t hsegs ht]
    simp only [List.dropLast_concat, List.getLast?_concat, Option.getD_some]
  refine ⟨hmain, ?_⟩
  unfold rtSendCommandResolution
  rw [hmain]

/-- Counterexample to C9 as stated: the chunk `"\r\nOK\r\n"` carries two
complete CRLF-terminated segments (an empty one and `"OK"`), but only one
response event is emitted — the empty segment is dropped, not emitted. -/
theorem rt_empty_segment_counterexample :
    (rtOnData [] ('\r' :: '\n' :: 'O' :: 'K' :: '\r' :: '\n' :: [])).1 =
      [['O', 'K']] := by decide

/-- Witness for C9: segments `"OK"` and `" "` followed by partial tail `"p"`
emit exactly the trimmed nonempty lines and retain the tail. -/
theorem rt_framing_witness :
    (∀ s ∈ ([['O', 'K'], [' ']] : List (List Char)), hasCRLF s = false) ∧
    rtOnData [] (joinCRLF [['O', 'K'], [' ']] ['p']) =
      ((([['O', 'K'], [' ']] : List (List Char)).map trimChars).filter
        (fun l => !l.isEmpty), ['p']) :=
  ⟨by decide,
    (rt_framing [['O', 'K'], [' ']] ['p'] [] _ (by decide) (by decide) rfl).1⟩

end RossScheduler
